import Mathlib

/-!
Verification development for the AU-GURU chatbot core: a shallow embedding of
the query classifier, the context assembler (smart knowledge base), the
Gemini-client conversation history management, and the in-memory session
registry, together with theorems about their specified properties.
-/

set_option maxRecDepth 4000

namespace AUGuru

/-!
## JSON value model

The knowledge records (`au_contacts.json`, `au_faculties.json`,
`au_history.json`, `au_tuitions.json`) are nested JSON trees accessed with
JavaScript optional chaining.  We model JSON values, JS truthiness, JS
string conversion, `Number.prototype.toLocaleString` (comma grouping), and
optional member / index access.  `Option Json` stands for a possibly
`undefined` JS value (`none` = `undefined`).
-/

inductive Json where
  | null
  | bool (b : Bool)
  | num (n : Int)
  | str (s : String)
  | arr (elems : List Json)
  | obj (fields : List (String × Json))

/-- JS truthiness of a defined value. -/
def jsTruthy : Json → Bool
  | .null => false
  | .bool b => b
  | .num n => n != 0
  | .str s => s != ""
  | .arr _ => true
  | .obj _ => true

/-- Insert thousands separators into a reversed digit list (used for
`toLocaleString`). -/
def groupRev : List Char → List Char
  | a :: b :: c :: rest =>
    if rest.isEmpty then [a, b, c] else a :: b :: c :: ',' :: groupRev rest
  | l => l

/-- `Number.prototype.toLocaleString()` for the integers appearing in the
knowledge base: decimal digits grouped in threes by commas. -/
def localeString (n : Int) : String :=
  let digits := (toString n.natAbs).data
  let grouped := (groupRev digits.reverse).reverse
  if n < 0 then "-" ++ String.mk grouped else String.mk grouped

mutual

/-- JS template-literal string conversion of a defined value. -/
def jsToString : Json → String
  | .null => "null"
  | .bool b => if b then "true" else "false"
  | .num n => toString n
  | .str s => s
  | .arr xs => jsToStringList xs
  | .obj _ => "[object Object]"

/-- `Array.prototype.join(",")`: `null` elements become empty strings. -/
def jsToStringList : List Json → String
  | [] => ""
  | [x] => match x with | .null => "" | v => jsToString v
  | x :: rest =>
    (match x with | .null => "" | v => jsToString v) ++ "," ++ jsToStringList rest

end

/-- `v.toLocaleString()` on a (truthy) value: numbers get comma grouping,
other values behave like their default string conversion. -/
def jsToLocaleString : Json → String
  | .num n => localeString n
  | v => jsToString v

/-- Property access `v.f` on a defined (non-nullish) base: objects look the
field up, every other base yields `undefined`. -/
def getField : Json → String → Option Json
  | .obj fields, f => List.lookup f fields
  | _, _ => none

/-- Optional chaining `o?.f`: short-circuits on `undefined`/`null`. -/
def optChain (o : Option Json) (f : String) : Option Json :=
  match o with
  | none => none
  | some .null => none
  | some v => getField v f

/-- Optional index access `o?.[i]`. -/
def optIndex (o : Option Json) (i : Nat) : Option Json :=
  match o with
  | none => none
  | some .null => none
  | some (.arr xs) => xs.get? i
  | some (.obj fields) => List.lookup (toString i) fields
  | some (.str s) => (s.data.get? i).map (fun c => .str (String.mk [c]))
  | some _ => none

/-- `expr || fallbackLiteral` where `expr` is a possibly undefined value used
in string position: falsy or undefined degrades to the fallback. -/
def jsOr (v : Option Json) (fallback : String) : String :=
  match v with
  | none => fallback
  | some j => if jsTruthy j then jsToString j else fallback

/-- `(expr as number) || fallbackNumber`: the raw value when truthy, else the
numeric fallback (the later `.toLocaleString()` call is applied to this). -/
def numOr (v : Option Json) (fallback : Int) : Json :=
  match v with
  | none => .num fallback
  | some j => if jsTruthy j then j else .num fallback

/-!
## Query classifier (`lib/smart-knowledge-base.ts`)

`KNOWLEDGE_CATEGORIES` declares the four categories, in this order, each with
its keyword list.  `QueryClassifier.classifyQuery` lowercases the query,
collects every category one of whose keywords occurs as a substring
(`String.prototype.includes`), and falls back to `[contacts, faculties]`
when nothing matched.
-/

inductive Category where
  | contacts
  | faculties
  | history
  | tuitions
deriving DecidableEq, Fintype

/-- Declaration (= `Object.entries` iteration) order of `KNOWLEDGE_CATEGORIES`. -/
def CATEGORY_ORDER : List Category :=
  [Category.contacts, Category.faculties, Category.history, Category.tuitions]

/-- The `keywords` array of each entry of `KNOWLEDGE_CATEGORIES`. -/
def keywords : Category → List String
  | .contacts =>
    ["contact", "phone", "address", "location", "campus", "where", "find",
     "reach", "call", "visit", "email", "website"]
  | .faculties =>
    ["program", "course", "study", "major", "faculty", "school", "degree",
     "bachelor", "master", "graduate", "undergraduate", "engineering",
     "business", "arts", "science", "technology", "communication",
     "architecture", "design", "nursing", "law", "medicine", "biotechnology",
     "music"]
  | .history =>
    ["history", "founded", "established", "background", "about", "origin",
     "when", "started", "old", "tradition", "heritage", "gabriel", "brothers",
     "college"]
  | .tuitions =>
    ["tuition", "fee", "cost", "price", "expensive", "cheap", "pay",
     "payment", "money", "scholarship", "financial", "afford", "budget",
     "matriculation", "insurance"]

/-- `String.prototype.toLowerCase()` (ASCII range, which covers every
keyword). -/
def toLowerCase (s : String) : String := String.mk (s.data.map Char.toLower)

/-- Character-list version of "starts with". -/
def isPrefixChars : List Char → List Char → Bool
  | [], _ => true
  | _ :: _, [] => false
  | a :: as, b :: bs => a == b && isPrefixChars as bs

/-- Character-list version of "occurs contiguously". -/
def isInfixChars (needle : List Char) : List Char → Bool
  | [] => needle.isEmpty
  | b :: bs => isPrefixChars needle (b :: bs) || isInfixChars needle bs

/-- `haystack.includes(needle)`. -/
def isSubstring (needle haystack : String) : Bool :=
  isInfixChars needle.data haystack.data

/-- `config.keywords.some(keyword => normalizedQuery.includes(keyword))`. -/
def categoryMatches (normalizedQuery : String) (c : Category) : Bool :=
  (keywords c).any (fun keyword => isSubstring keyword normalizedQuery)

/-- `QueryClassifier.classifyQuery`. -/
def classifyQuery (query : String) : List Category :=
  let normalizedQuery := toLowerCase query
  let relevantCategories := CATEGORY_ORDER.filter (categoryMatches normalizedQuery)
  if relevantCategories.isEmpty then [Category.contacts, Category.faculties]
  else relevantCategories

/-!
## Context assembler (`SmartKnowledgeBase.generateContextPrompt`)

The prompt is a fixed preamble, then per-category sections appended by four
sequential `if` blocks — in source order `contacts`, `faculties`,
`tuitions`, `history` — each guarded by membership in the category list and
truthiness of the backing record, each wrapped in `try`/`catch` (a throw
logs and omits the section), and finally a fixed closing instruction block.
The four knowledge records themselves (`@/data/*.json`) are external inputs,
so the assembler is parameterised by a `Category → Option Json` record map
(`none` = the key is absent).
-/

/-- The fixed instruction preamble. -/
def basePrompt : String :=
  "You are AU Smart Assistant for Assumption University Thailand. Be helpful, friendly, and concise (2-3 sentences max).\n\nAVAILABLE KNOWLEDGE:"

/-- The fixed closing instruction block (scope rules plus example Q/A pairs). -/
def closingInstructions : String :=
  "\n\nINSTRUCTIONS:\n1. Only answer AU-related questions using the above information\n2. Be concise (2-3 sentences maximum)\n3. For unrelated questions: \"I can only help with AU information about programs, admissions, campus life, fees, and contact details. What would you like to know about AU?\"\n4. If you need more specific information, ask for clarification\n5. Always be helpful and direct\n\nEXAMPLES:\nQ: \"What programs do you offer?\"\nA: \"AU offers undergraduate programs in Business, Engineering, Computer Science, Communication Arts, Architecture, Nursing, Law, and Medicine. We also have graduate MBA, Masters, and Doctoral programs. Which area interests you?\"\n\nQ: \"How much is tuition?\"\nA: \"Undergraduate tuition is 112,000-350,000 THB per year. Graduate programs range from 200,000-550,000 THB per year, plus additional fees.\"\n\nStay focused on AU information only."

/-- The CONTACT INFORMATION section (this template performs no method calls,
so it cannot throw). -/
def contactsSectionText (contacts : Json) : String :=
  let campuses := getField contacts "campuses"
  "\n\nCONTACT INFORMATION:\n- Main Website: "
    ++ jsOr (getField contacts "main_website") "au.edu"
    ++ "\n- Campuses:\n  • Hua Mak Campus: "
    ++ jsOr (optChain (optIndex campuses 0) "address") "Bangkok"
    ++ ", Phone: "
    ++ jsOr (optChain (optIndex campuses 0) "phone") "+66 2 719 1919"
    ++ "\n  • Suvarnabhumi Campus: "
    ++ jsOr (optChain (optIndex campuses 1) "address") "Samutprakarn"
    ++ ", Phone: "
    ++ jsOr (optChain (optIndex campuses 1) "phone") "+66 2 723 2323"

/-- `.map(school => school.name)` over the undergraduate schools array:
member access on a `null` element throws. -/
def mapSchoolNames : List Json → Except Unit (List (Option Json))
  | [] => Except.ok []
  | .null :: _ => Except.error ()
  | v :: rest => do
    let tail ← mapSchoolNames rest
    Except.ok (getField v "name" :: tail)

/-- `.join(", ")` where `undefined`/`null` entries render as empty strings. -/
def joinNames (names : List (Option Json)) : String :=
  String.intercalate ", " (names.map (fun o => match o with
    | none => ""
    | some .null => ""
    | some v => jsToString v))

/-- `faculties.faculties?.undergraduate?.map(s => s.name).join(", ") || fallback`;
calling `.map` on a defined non-null non-array throws. -/
def facultiesSchools (faculties : Json) : Except Unit String :=
  match optChain (getField faculties "faculties") "undergraduate" with
  | none => Except.ok "Business, Engineering, Computer Science, Arts"
  | some .null => Except.ok "Business, Engineering, Computer Science, Arts"
  | some (.arr xs) => do
    let names ← mapSchoolNames xs
    let joined := joinNames names
    Except.ok
      (if joined == "" then "Business, Engineering, Computer Science, Arts"
       else joined)
  | some _ => Except.error ()

/-- The ACADEMIC PROGRAMS section. -/
def facultiesSection (faculties : Json) : Except Unit String := do
  let undergradSchools ← facultiesSchools faculties
  Except.ok
    ("\n\nACADEMIC PROGRAMS:\n- Undergraduate Schools: " ++ undergradSchools
      ++ "\n- Popular Programs: Business Administration, Computer Science, Engineering, Communication Arts, Architecture, Nursing, Law, Medicine"
      ++ "\n- Graduate Programs: Masters and Doctoral degrees available in Business, Science & Technology, Biotechnology, Human Sciences")

/-- The TUITION FEES section (reads degrade to numeric fallbacks; the
`.toLocaleString()` calls never throw on a truthy value). -/
def tuitionsSectionText (tuitions : Json) : String :=
  let tft := getField tuitions "tuition_fees_thb"
  let ugMin := numOr (optChain (optChain (optChain (optChain tft "undergraduate") "domestic_students") "annual_fee_range") "min") 112000
  let ugMax := numOr (optChain (optChain (optChain (optChain tft "undergraduate") "domestic_students") "annual_fee_range") "max") 350000
  let gradMin := numOr (optChain (optChain (optChain (optChain tft "graduate") "masters_programs") "annual_fee_range") "min") 200000
  let gradMax := numOr (optChain (optChain (optChain (optChain tft "graduate") "mba_programs") "total_fee_range") "max") 550000
  let matriculation := numOr (optChain (optChain (optChain (optChain tft "undergraduate") "domestic_students") "additional_fees") "matriculation_fee") 23500
  let insurance := numOr (optChain (optChain (optChain (optChain tft "undergraduate") "domestic_students") "additional_fees") "health_insurance") 3650
  "\n\nTUITION FEES (THB):\n- Undergraduate: "
    ++ jsToLocaleString ugMin ++ "-" ++ jsToLocaleString ugMax
    ++ " per year\n- Graduate/MBA: "
    ++ jsToLocaleString gradMin ++ "-" ++ jsToLocaleString gradMax
    ++ " per year\n- Additional Fees: Matriculation "
    ++ jsToLocaleString matriculation ++ " THB, Health Insurance "
    ++ jsToLocaleString insurance ++ " THB"

/-- `.find(d => d.year === 1990)`: member access on a `null` element throws;
strict equality only matches the number 1990. -/
def findYear1990 : List Json → Except Unit (Option Json)
  | [] => Except.ok none
  | .null :: _ => Except.error ()
  | v :: rest =>
    match getField v "year" with
    | some (.num 1990) => Except.ok (some v)
    | _ => findYear1990 rest

/-- `history.history?.origins?.notable_dates?.find(d => d.year === 1990)?.event || fallback`;
calling `.find` on a defined non-null non-array throws. -/
def universityEventRead (history : Json) : Except Unit String :=
  match optChain (optChain (getField history "history") "origins") "notable_dates" with
  | none => Except.ok "Granted full university status"
  | some .null => Except.ok "Granted full university status"
  | some (.arr xs) => do
    let found ← findYear1990 xs
    Except.ok (jsOr (match found with
      | none => none
      | some v => getField v "event") "Granted full university status")
  | some _ => Except.error ()

/-- The UNIVERSITY HISTORY section. -/
def historySection (history : Json) : Except Unit String := do
  let origins := optChain (getField history "history") "origins"
  let founded := jsOr (optChain origins "registration_year") "1938"
  let originalName := jsOr (optChain origins "original_institution") "Assumption Commercial College"
  let universityEvent ← universityEventRead history
  let founder := jsOr (optChain origins "founder") "Brothers of St. Gabriel"
  let totalStudents := numOr (optChain (optChain origins "student_body") "total_students") 100000
  let internationalInfo := jsOr (optChain (optChain origins "student_body") "international_students") "over 100 countries"
  let philosophy := jsOr (optChain origins "philosophy") "Open, international community with moral integrity"
  Except.ok
    ("\n\nUNIVERSITY HISTORY:\n- Founded: " ++ founded ++ " as " ++ originalName
      ++ "\n- University Status: " ++ universityEvent
      ++ "\n- Founded by: " ++ founder
      ++ "\n- Students: " ++ jsToLocaleString totalStudents
      ++ "+ students from " ++ internationalInfo
      ++ "\n- Philosophy: " ++ philosophy)

/-- Dispatch to the per-category template. -/
def renderSection (c : Category) (data : Json) : Except Unit String :=
  match c with
  | .contacts => Except.ok (contactsSectionText data)
  | .faculties => facultiesSection data
  | .tuitions => Except.ok (tuitionsSectionText data)
  | .history => historySection data

/-- One guarded `if (categories.includes(c) && relevantData[c]) try {...} catch {...}`
block: emits the rendered section, or the empty string when the category is
not selected, its record is absent or falsy, or rendering threw. -/
def tryRender (c : Category) (relevantData : Category → Option Json)
    (categories : List Category) : String :=
  if categories.contains c then
    match relevantData c with
    | none => ""
    | some j =>
      if jsTruthy j then
        match renderSection c j with
        | Except.ok s => s
        | Except.error _ => ""
      else ""
  else ""

/-- `SmartKnowledgeBase.generateContextPrompt`: preamble, then the four
conditional section blocks in source order (`contacts`, `faculties`,
`tuitions`, `history`), then the fixed closing block. -/
def generateContextPrompt (categories : List Category)
    (relevantData : Category → Option Json) : String :=
  basePrompt
    ++ tryRender Category.contacts relevantData categories
    ++ tryRender Category.faculties relevantData categories
    ++ tryRender Category.tuitions relevantData categories
    ++ tryRender Category.history relevantData categories
    ++ closingInstructions

/-- The order in which the four `if` blocks of `generateContextPrompt`
appear in the source. -/
def EMIT_ORDER : List Category :=
  [Category.contacts, Category.faculties, Category.tuitions, Category.history]

/-- Concatenation of the conditional section blocks following a given
category order. -/
def promptSections (order : List Category) (categories : List Category)
    (relevantData : Category → Option Json) : String :=
  (order.map (fun c => tryRender c relevantData categories)).foldl (· ++ ·) ""

/-- A prompt whose sections are emitted following a given category order:
preamble, the conditional sections in that order, closing block. -/
def renderedInOrder (order : List Category) (categories : List Category)
    (relevantData : Category → Option Json) : String :=
  basePrompt ++ promptSections order categories relevantData ++ closingInstructions

/-- `SmartKnowledgeBase.getRelevantData`: the record map restricted to the
selected categories. -/
def getRelevantData (categories : List Category)
    (records : Category → Option Json) : Category → Option Json :=
  fun c => if categories.contains c then records c else none

/-- The value returned by `SmartKnowledgeBase.getContextualKnowledge`. -/
structure ContextBundle where
  categories : List Category
  data : Category → Option Json
  prompt : String
  tokenEstimate : Nat

/-- `SmartKnowledgeBase.getContextualKnowledge`, parameterised by the four
loaded knowledge records. -/
def getContextualKnowledge (query : String)
    (records : Category → Option Json) : ContextBundle :=
  let relevantCategories := classifyQuery query
  let relevantData := getRelevantData relevantCategories records
  let contextPrompt := generateContextPrompt relevantCategories relevantData
  { categories := relevantCategories
    data := relevantData
    prompt := contextPrompt
    tokenEstimate := (contextPrompt.length + 3) / 4 }

/-- All-fallback record map: every record is a truthy object with no fields,
so every field read fails and degrades to its fallback literal. -/
def emptyRecords : Category → Option Json := fun _ => some (Json.obj [])

/-!
## Gemini client conversation history (`lib/gemini.ts`)

`AUGeminiClient` keeps a `conversationHistory` array whose element 0 is a
fixed system-instruction message pushed by the constructor.
`generateResponse` appends the user message and the model reply and then
trims: when the length exceeds `maxHistoryLength + 1` it keeps element 0
plus the last `maxHistoryLength` messages.  On an API error nothing is
appended.  We model one client's history and a sequence of completed calls
(`some reply` = successful call, `none` = API error).
-/

inductive Role where
  | user
  | model
deriving DecidableEq

structure ConversationMessage where
  role : Role
  text : String
deriving DecidableEq

/-- The fixed `SYSTEM_PROMPT` of `lib/gemini.ts`. -/
def SYSTEM_PROMPT : String :=
  "You are AU Smart Assistant for Assumption University Thailand. Be helpful, friendly, and conversational.\n\nKNOWLEDGE BASE:\nCONTACTS: Hua Mak Campus (592/3 Ramkhamhaeng 24 Rd, Bangkok, +66 2 719 1919), Suvarnabhumi Campus (88 Moo.8, Bang Na-Trad Km.26, Samutprakarn, +66 2 723 2323). Website: au.edu\n\nPROGRAMS: Business (BBA, Marketing, Finance, International Business), Arts (Business English/French), Music (Management, Performance), Science & Technology (Computer Science, ICT), Communication Arts (Mass Comm, Advertising, PR), Architecture & Design, Engineering (Electrical, Mechanical), Biotechnology, Nursing, Law, Medicine. Graduate: MBA, Masters, Doctoral programs available.\n\nTUITION: Undergraduate 112K-350K THB/year, Graduate 200K-550K THB, Additional fees: Matriculation 23.5K THB, Health insurance 3.65K THB.\n\nHISTORY: Founded 1938 as Assumption Commercial College by Brothers of St. Gabriel. Full university status 1990. 100K+ students from 100+ countries. English instruction hallmark.\n\nCONVERSATION RULES:\n1. Remember previous questions and build on them naturally\n2. Only answer AU-related questions with warmth and personality\n3. Be conversational but concise (2-4 sentences typically)\n4. Reference previous context when relevant\n5. For unrelated questions: \"I focus on AU information - what would you like to know about our programs, campus, or admissions?\"\n\nStay focused on AU but be engaging and remember our conversation."

/-- The system instruction message pushed by the constructor. -/
def systemMessage : ConversationMessage := ⟨Role.model, SYSTEM_PROMPT⟩

/-- `conversationHistory` right after `new AUGeminiClient(...)`. -/
def initialHistory : List ConversationMessage := [systemMessage]

/-- `maxHistoryLength = 10` (keep last 5 exchanges = 10 messages). -/
def maxHistoryLength : Nat := 10

/-- `AUGeminiClient.trimConversationHistory`: when the history exceeds
`maxHistoryLength + 1` messages, keep the first message (`history[0]`, the
system prompt) plus `history.slice(-maxHistoryLength)`. -/
def trimConversationHistory (history : List ConversationMessage) :
    List ConversationMessage :=
  if history.length > maxHistoryLength + 1 then
    history.take 1 ++ history.drop (history.length - maxHistoryLength)
  else history

/-- The history update performed by a successful `generateResponse` call:
push the user message, push the model reply, then trim. -/
def generateResponseHistory (history : List ConversationMessage)
    (message responseText : String) : List ConversationMessage :=
  trimConversationHistory
    (history ++ [⟨Role.user, message⟩, ⟨Role.model, responseText⟩])

/-- One completed `generateResponse` call: `(message, some reply)` appends
and trims; `(message, none)` is the caught-API-error path, which returns the
apology string without touching the history. -/
def applyCall (history : List ConversationMessage) :
    String × Option String → List ConversationMessage
  | (message, some responseText) => generateResponseHistory history message responseText
  | (_, none) => history

/-- The history after a sequence of completed `generateResponse` calls on a
freshly constructed client. -/
def runConversation (calls : List (String × Option String)) :
    List ConversationMessage :=
  calls.foldl applyCall initialHistory

/-- `AUGeminiClient.resetConversation`: the history is replaced by the
single system instruction message. -/
def resetConversation : List ConversationMessage := [systemMessage]

/-!
## Session registry (`app/api/chat/route.ts`)

Two module-level `Map`s: `conversationSessions` (session id → client) and
`sessionTimestamps` (session id → last-activity time).  We model a client by
its conversation history, and each `Map` by its association list in
insertion order (`Map.set` updates in place or appends; `Map.delete`
removes the key).
-/

/-- `SESSION_TIMEOUT = 30 * 60 * 1000` (30 minutes in milliseconds). -/
def SESSION_TIMEOUT : Int := 30 * 60 * 1000

/-- The two session maps. -/
structure SessionState where
  sessions : List (String × List ConversationMessage)
  timestamps : List (String × Int)
deriving DecidableEq

/-- Both maps empty (module load). -/
def emptyState : SessionState := ⟨[], []⟩

/-- `Map.delete`. -/
def eraseKey {α : Type} (id : String) (l : List (String × α)) :
    List (String × α) :=
  l.filter (fun p => p.1 != id)

/-- One iteration of the `cleanupOldSessions` loop body for a timestamp
entry: delete the session from both maps when it has been idle longer than
the timeout. -/
def cleanupStep (now : Int) (st : SessionState) (entry : String × Int) :
    SessionState :=
  if now - entry.2 > SESSION_TIMEOUT then
    { sessions := eraseKey entry.1 st.sessions
      timestamps := eraseKey entry.1 st.timestamps }
  else st

/-- `cleanupOldSessions`: scan every `sessionTimestamps` entry, evicting the
expired ones from both maps. -/
def cleanupOldSessions (now : Int) (st : SessionState) : SessionState :=
  st.timestamps.foldl (cleanupStep now) st

/-- `Map.set`: update the value in place when the key exists, otherwise
append the new binding. -/
def setKey {α : Type} (id : String) (v : α) (l : List (String × α)) :
    List (String × α) :=
  if (List.lookup id l).isSome then
    l.map (fun p => if p.1 = id then (id, v) else p)
  else l ++ [(id, v)]

/-- `getOrCreateSession`: `doCleanup` stands for the 10% `Math.random()`
draw having fired; a missing session id gets a fresh client; the
last-activity timestamp is always set. -/
def getOrCreateSession (id : String) (now : Int) (doCleanup : Bool)
    (st : SessionState) : SessionState × List ConversationMessage :=
  let st1 := if doCleanup then cleanupOldSessions now st else st
  match List.lookup id st1.sessions with
  | some client =>
    ({ st1 with timestamps := setKey id now st1.timestamps }, client)
  | none =>
    ({ sessions := st1.sessions ++ [(id, initialHistory)]
       timestamps := setKey id now st1.timestamps }, initialHistory)

/-- Result reported by the `DELETE` handler. -/
inductive ResetResult where
  | success (sessionId : String)
  | notFound
deriving DecidableEq

/-- The `DELETE` handler: `if (sessionId && conversationSessions.has(sessionId))`
reset that session's history to the system instruction and report success,
otherwise report "Session not found" (the JS truthiness test makes the
empty-string id take the not-found branch). -/
def deleteSession (sessionId : String) (st : SessionState) :
    ResetResult × SessionState :=
  if sessionId ≠ "" ∧ (List.lookup sessionId st.sessions).isSome then
    (ResetResult.success sessionId,
      { st with sessions :=
          st.sessions.map (fun p =>
            if p.1 = sessionId then (p.1, resetConversation) else p) })
  else
    (ResetResult.notFound, st)

/-- An incoming event touching the registry: a chat request (which may
probabilistically trigger a cleanup before the session lookup), or a bare
eviction scan. -/
inductive RegistryOp where
  | request (id : String) (now : Int) (doCleanup : Bool)
  | cleanup (now : Int)

/-- Apply one registry event. -/
def applyOp (st : SessionState) : RegistryOp → SessionState
  | .request id now doCleanup => (getOrCreateSession id now doCleanup st).1
  | .cleanup now => cleanupOldSessions now st

/-- The registry state after an interleaving of requests and eviction
scans, starting from both maps empty. -/
def runOps (ops : List RegistryOp) : SessionState :=
  ops.foldl applyOp emptyState

/-!
## Auxiliary definitions used by the theorems
-/

/-- The session ids evicted by a cleanup scan over the given timestamp
entries. -/
def expiredIds (now : Int) (entries : List (String × Int)) : List String :=
  (entries.filter (fun p => decide (now - p.2 > SESSION_TIMEOUT))).map Prod.fst

/-- The two session maps hold exactly the same session ids. -/
def KeySync (st : SessionState) : Prop :=
  ∀ k : String, k ∈ st.sessions.map Prod.fst ↔ k ∈ st.timestamps.map Prod.fst

/-- A record map whose history record makes the `.find` call of the history
template throw (`notable_dates` is a number), while every other record is an
empty object. -/
def throwingHistoryRecords : Category → Option Json := fun c =>
  match c with
  | .history => some (Json.obj [("history",
      Json.obj [("origins", Json.obj [("notable_dates", Json.num 5)])])])
  | _ => some (Json.obj [])

/-- A concrete registry state with one stale and one fresh session. -/
def sampleState : SessionState :=
  ⟨[("a", initialHistory), ("b", initialHistory)], [("a", 0), ("b", 1000000)]⟩

/-- A concrete registry state with a single session. -/
def resetSampleState : SessionState :=
  ⟨[("s1", initialHistory)], [("s1", 0)]⟩

/-!
## Classifier theorems
-/

theorem category_mem_order (c : Category) : c ∈ CATEGORY_ORDER := by
  cases c <;> simp [CATEGORY_ORDER]

/-- C4: if no keyword of any category occurs as a substring of the
lowercased query, `classifyQuery` returns exactly the default pair
`[contacts, faculties]`; moreover `classifyQuery` never returns the empty
list. -/
theorem classifyQuery_default (query : String)
    (h : ∀ c : Category, ∀ k ∈ keywords c,
      isSubstring k (toLowerCase query) = false) :
    classifyQuery query = [Category.contacts, Category.faculties]
      ∧ ∀ q : String, classifyQuery q ≠ [] := by
  constructor
  · have hfilter :
        CATEGORY_ORDER.filter (categoryMatches (toLowerCase query)) = [] := by
      apply List.filter_eq_nil_iff.mpr
      intro c _
      simp only [categoryMatches, Bool.not_eq_true]
      rw [List.any_eq_false]
      intro k hk
      simp [h c k hk]
    simp [classifyQuery, hfilter]
  · intro q
    by_cases hq :
        (CATEGORY_ORDER.filter (categoryMatches (toLowerCase q))).isEmpty
    · simp [classifyQuery, hq]
    · simp only [classifyQuery, hq, if_false, Bool.false_eq_true]
      intro hnil
      rw [hnil] at hq
      simp at hq

/-- C4 witness: a keyword-free query such as "zzzz" classifies to the
default pair, and the classifier result is nonempty. -/
theorem classifyQuery_default_witness :
    classifyQuery "zzzz" = [Category.contacts, Category.faculties]
      ∧ classifyQuery "tuition" ≠ [] := by
  have h := classifyQuery_default "zzzz" (by decide)
  exact ⟨h.1, h.2 "tuition"⟩

/-- C5: whenever a keyword of category `c` occurs as a substring of the
lowercased query, `c` is in the classifier result. -/
theorem classifyQuery_keywordComplete (query : String) (c : Category)
    (k : String) (hk : k ∈ keywords c)
    (hsub : isSubstring k (toLowerCase query) = true) :
    c ∈ classifyQuery query := by
  have hmatch : categoryMatches (toLowerCase query) c = true := by
    unfold categoryMatches
    rw [List.any_eq_true]
    exact ⟨k, hk, hsub⟩
  have hmemf :
      c ∈ CATEGORY_ORDER.filter (categoryMatches (toLowerCase query)) :=
    List.mem_filter.mpr ⟨category_mem_order c, hmatch⟩
  have hne : ¬ (CATEGORY_ORDER.filter
      (categoryMatches (toLowerCase query))).isEmpty = true := by
    intro hempty
    rw [List.isEmpty_iff] at hempty
    rw [hempty] at hmemf
    simp at hmemf
  simp only [classifyQuery]
  rw [if_neg hne]
  exact hmemf

/-- C5 witness: "How much is tuition?" contains the tuitions keyword
"tuition", so tuitions is classified. -/
theorem classifyQuery_keywordComplete_witness :
    Category.tuitions ∈ classifyQuery "How much is tuition?" :=
  classifyQuery_keywordComplete "How much is tuition?" Category.tuitions
    "tuition" (by decide) (by decide)

/-- C9: the classifier result is a subsequence of the fixed category
enumeration order (so its elements appear in that order) and contains no
duplicates. -/
theorem classifyQuery_ordered_nodup (query : String) :
    List.Sublist (classifyQuery query) CATEGORY_ORDER
      ∧ (classifyQuery query).Nodup := by
  have horder : CATEGORY_ORDER.Nodup := by decide
  by_cases hq :
      (CATEGORY_ORDER.filter (categoryMatches (toLowerCase query))).isEmpty
  · have hres : classifyQuery query = [Category.contacts, Category.faculties] := by
      simp [classifyQuery, hq]
    rw [hres]
    constructor
    · exact List.Sublist.cons₂ _ (List.Sublist.cons₂ _
        (List.nil_sublist [Category.history, Category.tuitions]))
    · decide
  · have hres : classifyQuery query
        = CATEGORY_ORDER.filter (categoryMatches (toLowerCase query)) := by
      simp [classifyQuery, hq]
    rw [hres]
    exact ⟨List.filter_sublist CATEGORY_ORDER,
      (List.filter_sublist CATEGORY_ORDER).nodup horder⟩

/-!
## Context assembler theorems
-/

/-- C8: for every category list (including the empty one) and every shape
of the knowledge records, the assembled prompt ends with the fixed closing
instruction block verbatim. -/
theorem generateContextPrompt_closing (categories : List Category)
    (relevantData : Category → Option Json) :
    ∃ preceding : String,
      generateContextPrompt categories relevantData
        = preceding ++ closingInstructions :=
  ⟨_, rfl⟩

/-- C6: `getContextualKnowledge` is a total function of the query and the
four backing records — for every record shape (absent, malformed, or
throwing inside a section template) it still returns a bundle whose prompt
carries the preamble and closing block; a record with no readable fields
renders the hardcoded fallback literals, and a history record whose
`notable_dates` is a number (which makes the `.find` call throw) merely
loses its own section while assembly continues with the remaining
categories. -/
theorem getContextualKnowledge_total (query : String)
    (records : Category → Option Json) :
    (getContextualKnowledge query records).categories = classifyQuery query
    ∧ (getContextualKnowledge query records).prompt
        = generateContextPrompt (classifyQuery query)
            (getRelevantData (classifyQuery query) records)
    ∧ (∃ preceding, (getContextualKnowledge query records).prompt
        = preceding ++ closingInstructions)
    ∧ contactsSectionText (Json.obj [])
        = "\n\nCONTACT INFORMATION:\n- Main Website: au.edu\n- Campuses:\n  • Hua Mak Campus: Bangkok, Phone: +66 2 719 1919\n  • Suvarnabhumi Campus: Samutprakarn, Phone: +66 2 723 2323"
    ∧ historySection (Json.obj [("history",
        Json.obj [("origins", Json.obj [("notable_dates", Json.num 5)])])])
        = Except.error ()
    ∧ tryRender Category.history
        (getRelevantData (classifyQuery "founded fees") throwingHistoryRecords)
        (classifyQuery "founded fees") = ""
    ∧ tryRender Category.tuitions
        (getRelevantData (classifyQuery "founded fees") throwingHistoryRecords)
        (classifyQuery "founded fees") = tuitionsSectionText (Json.obj []) := by
  refine ⟨rfl, rfl, ⟨_, rfl⟩, by decide, rfl, rfl, rfl⟩

/-- C1 (amended): the per-category sections of the prompt are emitted in
the fixed source order contacts, faculties, tuitions, history — and the
prompt depends only on membership in the input category list, not on its
ordering. -/
theorem generateContextPrompt_emitOrder (categories : List Category)
    (relevantData : Category → Option Json) :
    generateContextPrompt categories relevantData
        = renderedInOrder EMIT_ORDER categories relevantData
    ∧ ∀ categories' : List Category,
        (∀ c : Category, c ∈ categories ↔ c ∈ categories') →
        generateContextPrompt categories relevantData
          = generateContextPrompt categories' relevantData := by
  constructor
  · simp only [renderedInOrder, promptSections, EMIT_ORDER, List.map_cons,
      List.map_nil, List.foldl_cons, List.foldl_nil, generateContextPrompt,
      String.empty_append, String.append_assoc]
  · intro categories' hmem
    have hc : ∀ c : Category,
        categories.contains c = categories'.contains c := by
      intro c
      by_cases h1 : c ∈ categories
      · have h2 : c ∈ categories' := (hmem c).mp h1
        simp [h1, h2]
      · have h2 : c ∉ categories' := fun h => h1 ((hmem c).mpr h)
        simp [h1, h2]
    simp only [generateContextPrompt, tryRender, hc]

/-- C1 counterexample: with both the history and tuitions categories
selected, the prompt does NOT emit its sections in the enumeration order
contacts, faculties, history, tuitions — the TUITION FEES block precedes
the UNIVERSITY HISTORY block. -/
theorem generateContextPrompt_enumOrder_counterexample :
    ¬ (generateContextPrompt [Category.history, Category.tuitions] emptyRecords
        = renderedInOrder CATEGORY_ORDER [Category.history, Category.tuitions]
            emptyRecords) := by
  decide

/-- C1 witness: the amended order equation at a concrete input, and
insensitivity to the ordering of the input category list. -/
theorem generateContextPrompt_emitOrder_witness :
    generateContextPrompt [Category.tuitions, Category.history] emptyRecords
        = renderedInOrder EMIT_ORDER [Category.tuitions, Category.history]
            emptyRecords
    ∧ generateContextPrompt [Category.tuitions, Category.history] emptyRecords
        = generateContextPrompt [Category.history, Category.tuitions]
            emptyRecords :=
  ⟨(generateContextPrompt_emitOrder [Category.tuitions, Category.history]
      emptyRecords).1,
   (generateContextPrompt_emitOrder [Category.tuitions, Category.history]
      emptyRecords).2 [Category.history, Category.tuitions] (by decide)⟩

/-!
## Conversation history theorems
-/

theorem applyCall_invariant (history : List ConversationMessage)
    (call : String × Option String)
    (h1 : history.length ≤ maxHistoryLength + 1)
    (h2 : history.head? = some systemMessage) :
    (applyCall history call).length ≤ maxHistoryLength + 1
      ∧ (applyCall history call).head? = some systemMessage := by
  obtain ⟨message, response⟩ := call
  cases response with
  | none => exact ⟨h1, h2⟩
  | some responseText =>
    cases history with
    | nil => simp at h2
    | cons first rest =>
      have hfirst : first = systemMessage := by
        simpa using h2
      subst hfirst
      simp only [applyCall, generateResponseHistory, trimConversationHistory]
      by_cases hlong :
          (systemMessage :: rest
            ++ ([⟨Role.user, message⟩, ⟨Role.model, responseText⟩]
              : List ConversationMessage)).length
            > maxHistoryLength + 1
      · rw [if_pos hlong]
        set appended := systemMessage :: rest
          ++ ([⟨Role.user, message⟩, ⟨Role.model, responseText⟩]
            : List ConversationMessage) with happ
        have htake : appended.take 1 = [systemMessage] := by
          rw [happ]
          rfl
        constructor
        · rw [List.length_append, htake, List.length_drop]
          simp only [List.length_singleton]
          omega
        · rw [htake]
          rfl
      · rw [if_neg hlong]
        constructor
        · simp only [List.length_append] at hlong ⊢
          omega
        · rfl

theorem foldl_applyCall_invariant (calls : List (String × Option String))
    (history : List ConversationMessage)
    (h1 : history.length ≤ maxHistoryLength + 1)
    (h2 : history.head? = some systemMessage) :
    (calls.foldl applyCall history).length ≤ maxHistoryLength + 1
      ∧ (calls.foldl applyCall history).head? = some systemMessage := by
  induction calls generalizing history with
  | nil => exact ⟨h1, h2⟩
  | cons call rest ih =>
    have hstep := applyCall_invariant history call h1 h2
    exact ih (applyCall history call) hstep.1 hstep.2

/-- C2: after any sequence of completed `generateResponse` calls the
conversation history never exceeds `maxHistoryLength + 1 = 11` messages,
and element 0 is always the fixed system instruction message — trimming
never removes it. -/
theorem conversationHistory_invariant (calls : List (String × Option String)) :
    (runConversation calls).length ≤ maxHistoryLength + 1
      ∧ (runConversation calls).head? = some systemMessage :=
  foldl_applyCall_invariant calls initialHistory (by decide) rfl

/-!
## Session registry lemmas
-/

theorem contains_iff_mem {α : Type} [BEq α] [LawfulBEq α] (l : List α)
    (a : α) : l.contains a = true ↔ a ∈ l := by
  simp

theorem lookup_isSome_iff {α : Type} (id : String) (l : List (String × α)) :
    (List.lookup id l).isSome = true ↔ id ∈ l.map Prod.fst := by
  induction l with
  | nil => simp [List.lookup]
  | cons p t ih =>
    cases hb : id == p.1
    · have hne : ¬ id = p.1 := by simpa using hb
      simp [List.lookup, hb, ih, hne]
    · have heq : id = p.1 := by simpa using hb
      simp [List.lookup, hb, heq]

theorem keys_nodup_lookup_unique {α : Type} (l : List (String × α))
    (h : (l.map Prod.fst).Nodup) (a : String) (b c : α)
    (hb : (a, b) ∈ l) (hc : (a, c) ∈ l) : b = c := by
  induction l with
  | nil => simp at hb
  | cons p t ih =>
    rw [List.map_cons, List.nodup_cons] at h
    rcases List.mem_cons.mp hb with hb1 | hb1 <;>
      rcases List.mem_cons.mp hc with hc1 | hc1
    · simpa using congrArg Prod.snd (hb1.trans hc1.symm)
    · exfalso
      apply h.1
      rw [← hb1]
      exact List.mem_map.mpr ⟨(a, c), hc1, rfl⟩
    · exfalso
      apply h.1
      rw [← hc1]
      exact List.mem_map.mpr ⟨(a, b), hb1, rfl⟩
    · exact ih h.2 hb1 hc1

theorem mem_expiredIds (now : Int) (entries : List (String × Int))
    (id : String) :
    id ∈ expiredIds now entries
      ↔ ∃ ts, (id, ts) ∈ entries ∧ now - ts > SESSION_TIMEOUT := by
  unfold expiredIds
  rw [List.mem_map]
  constructor
  · rintro ⟨p, hp, rfl⟩
    rw [List.mem_filter] at hp
    exact ⟨p.2, hp.1, by simpa using hp.2⟩
  · rintro ⟨ts, hmem, hexp⟩
    exact ⟨(id, ts), List.mem_filter.mpr ⟨hmem, by simpa using hexp⟩, rfl⟩

theorem cleanup_foldl_char (now : Int) (entries : List (String × Int))
    (st : SessionState) :
    (entries.foldl (cleanupStep now) st).sessions
        = st.sessions.filter (fun p => !((expiredIds now entries).contains p.1))
    ∧ (entries.foldl (cleanupStep now) st).timestamps
        = st.timestamps.filter (fun p => !((expiredIds now entries).contains p.1)) := by
  induction entries generalizing st with
  | nil =>
    constructor <;>
      · rw [List.foldl_nil,
          show (fun (p : String × _) =>
            !((expiredIds now []).contains p.1)) = fun _ => true from rfl,
          List.filter_true]
  | cons e es ih =>
    rw [List.foldl_cons]
    by_cases hexp : now - e.2 > SESSION_TIMEOUT
    · have hstep : cleanupStep now st e =
          { sessions := eraseKey e.1 st.sessions
            timestamps := eraseKey e.1 st.timestamps } := by
        unfold cleanupStep
        rw [if_pos hexp]
      have hids : expiredIds now (e :: es) = e.1 :: expiredIds now es := by
        unfold expiredIds
        rw [List.filter_cons_of_pos (by simpa using hexp), List.map_cons]
      rw [hstep, hids]
      have hcomb : ∀ (α : Type) (l : List (String × α)),
          (eraseKey e.1 l).filter (fun p => !((expiredIds now es).contains p.1))
            = l.filter (fun p => !((e.1 :: expiredIds now es).contains p.1)) := by
        intro α l
        unfold eraseKey
        rw [List.filter_filter]
        apply List.filter_congr
        intro p _
        rw [List.contains_cons]
        cases hpe : p.1 == e.1 <;>
          cases hpc : (expiredIds now es).contains p.1 <;> simp [hpe, hpc, bne]
      exact ⟨(ih _).1.trans (hcomb _ st.sessions),
        (ih _).2.trans (hcomb _ st.timestamps)⟩
    · have hstep : cleanupStep now st e = st := by
        unfold cleanupStep
        rw [if_neg hexp]
      have hids : expiredIds now (e :: es) = expiredIds now es := by
        unfold expiredIds
        rw [List.filter_cons_of_neg (by simpa using hexp)]
      rw [hstep, hids]
      exact ih st

theorem cleanupOldSessions_char (now : Int) (st : SessionState) :
    (cleanupOldSessions now st).sessions
        = st.sessions.filter
            (fun p => !((expiredIds now st.timestamps).contains p.1))
    ∧ (cleanupOldSessions now st).timestamps
        = st.timestamps.filter
            (fun p => !((expiredIds now st.timestamps).contains p.1)) :=
  cleanup_foldl_char now st.timestamps st

theorem foldl_cleanupStep_id (now : Int) (entries : List (String × Int))
    (st : SessionState)
    (h : ∀ e ∈ entries, ¬ now - e.2 > SESSION_TIMEOUT) :
    entries.foldl (cleanupStep now) st = st := by
  induction entries generalizing st with
  | nil => rfl
  | cons e es ih =>
    rw [List.foldl_cons]
    have hstep : cleanupStep now st e = st := by
      unfold cleanupStep
      rw [if_neg (h e (List.mem_cons_self e es))]
    rw [hstep]
    exact ih st (fun x hx => h x (List.mem_cons_of_mem e hx))

/-- C3: a cleanup scan removes a timestamp entry if and only if it is older
than the 30-minute timeout at scan time (entries within the timeout are
kept unchanged), and scanning twice with the same clock yields the same
registry state (eviction of an absent id is a no-op). -/
theorem cleanupOldSessions_spec (now : Int) (st : SessionState)
    (hkeys : (st.timestamps.map Prod.fst).Nodup) :
    (∀ id ts, (id, ts) ∈ (cleanupOldSessions now st).timestamps
        ↔ ((id, ts) ∈ st.timestamps ∧ ¬ now - ts > SESSION_TIMEOUT))
    ∧ cleanupOldSessions now (cleanupOldSessions now st)
        = cleanupOldSessions now st := by
  constructor
  · intro id ts
    rw [(cleanupOldSessions_char now st).2, List.mem_filter]
    constructor
    · rintro ⟨hmem, hni⟩
      refine ⟨hmem, fun hexp => ?_⟩
      have hin : id ∈ expiredIds now st.timestamps :=
        (mem_expiredIds now st.timestamps id).mpr ⟨ts, hmem, hexp⟩
      rw [← contains_iff_mem] at hin
      rw [hin] at hni
      simp at hni
    · rintro ⟨hmem, hnexp⟩
      refine ⟨hmem, ?_⟩
      have hni : id ∉ expiredIds now st.timestamps := by
        intro hin
        obtain ⟨ts', hmem', hexp'⟩ :=
          (mem_expiredIds now st.timestamps id).mp hin
        have : ts = ts' :=
          keys_nodup_lookup_unique st.timestamps hkeys id ts ts' hmem hmem'
        exact hnexp (this ▸ hexp')
      cases hc : (expiredIds now st.timestamps).contains id
      · rfl
      · exact absurd ((contains_iff_mem _ id).mp hc) hni
  · have hall : ∀ e ∈ (cleanupOldSessions now st).timestamps,
        ¬ now - e.2 > SESSION_TIMEOUT := by
      intro e he hexp
      rw [(cleanupOldSessions_char now st).2, List.mem_filter] at he
      have hin : e.1 ∈ expiredIds now st.timestamps :=
        (mem_expiredIds now st.timestamps e.1).mpr ⟨e.2, he.1, hexp⟩
      rw [← contains_iff_mem] at hin
      rw [hin] at he
      simp at he
    exact foldl_cleanupStep_id now _ _ hall

/-- C3 witness: with a stale session "a" and a fresh session "b", the scan
keeps exactly the fresh entry and a second scan changes nothing. -/
theorem cleanupOldSessions_spec_witness :
    ((("b", (1000000 : Int)) ∈ (cleanupOldSessions 2000000 sampleState).timestamps
        ↔ (("b", (1000000 : Int)) ∈ sampleState.timestamps
            ∧ ¬ (2000000 : Int) - 1000000 > SESSION_TIMEOUT))
      ∧ cleanupOldSessions 2000000 (cleanupOldSessions 2000000 sampleState)
          = cleanupOldSessions 2000000 sampleState) :=
  ⟨(cleanupOldSessions_spec 2000000 sampleState (by decide)).1 "b" 1000000,
   (cleanupOldSessions_spec 2000000 sampleState (by decide)).2⟩

theorem lookup_map_reset (id : String)
    (l : List (String × List ConversationMessage)) :
    List.lookup id
        (l.map (fun p => if p.1 = id then (p.1, resetConversation) else p))
      = (List.lookup id l).map (fun _ => resetConversation) := by
  induction l with
  | nil => rfl
  | cons p t ih =>
    by_cases hp : p.1 = id
    · rw [List.map_cons, if_pos hp]
      have hb : (id == p.1) = true := by simpa using hp.symm
      simp [List.lookup, hb]
    · rw [List.map_cons, if_neg hp]
      have hb : (id == p.1) = false := by
        simp only [beq_eq_false_iff_ne, ne_eq]
        exact fun h => hp h.symm
      simp [List.lookup, hb, ih]

/-- C7: resetting a session id that is not in the registry reports
not-found and leaves the registry unchanged; resetting an existing
(nonempty) session id reports success and restores that session's history
to exactly the single fixed system instruction message. -/
theorem deleteSession_spec (sessionId : String) (st : SessionState) :
    (List.lookup sessionId st.sessions = none →
      deleteSession sessionId st = (ResetResult.notFound, st))
    ∧ (∀ clientHistory, sessionId ≠ "" →
        List.lookup sessionId st.sessions = some clientHistory →
        (deleteSession sessionId st).1 = ResetResult.success sessionId
        ∧ List.lookup sessionId (deleteSession sessionId st).2.sessions
            = some resetConversation
        ∧ resetConversation = [systemMessage]) := by
  constructor
  · intro hnone
    unfold deleteSession
    rw [if_neg]
    rintro ⟨-, hsome⟩
    rw [hnone] at hsome
    simp at hsome
  · intro clientHistory hne hsome
    have hcond : sessionId ≠ ""
        ∧ (List.lookup sessionId st.sessions).isSome = true := by
      exact ⟨hne, by rw [hsome]; rfl⟩
    unfold deleteSession
    rw [if_pos hcond]
    refine ⟨rfl, ?_, rfl⟩
    rw [lookup_map_reset, hsome]
    rfl

/-- C7 witness: resetting the existing session "s1" succeeds and leaves a
one-element history; resetting the absent id "zz" reports not-found and
leaves the state unchanged. -/
theorem deleteSession_spec_witness :
    ((deleteSession "s1" resetSampleState).1 = ResetResult.success "s1"
      ∧ List.lookup "s1" (deleteSession "s1" resetSampleState).2.sessions
          = some resetConversation
      ∧ resetConversation = [systemMessage])
    ∧ deleteSession "zz" resetSampleState = (ResetResult.notFound, resetSampleState) :=
  ⟨(deleteSession_spec "s1" resetSampleState).2 initialHistory (by decide) rfl,
   (deleteSession_spec "zz" resetSampleState).1 rfl⟩

/-!
## Session map synchronization
-/

theorem mem_map_fst_setKey {α : Type} (id k : String) (v : α)
    (l : List (String × α)) :
    k ∈ (setKey id v l).map Prod.fst
      ↔ (k ∈ l.map Prod.fst ∨ k = id) := by
  unfold setKey
  by_cases hs : (List.lookup id l).isSome = true
  · rw [if_pos hs]
    have hkeys : (l.map (fun p => if p.1 = id then (id, v) else p)).map Prod.fst
        = l.map Prod.fst := by
      rw [List.map_map]
      apply List.map_congr_left
      intro p _
      by_cases hp : p.1 = id <;> simp [hp]
    rw [hkeys]
    have hid : id ∈ l.map Prod.fst := (lookup_isSome_iff id l).mp hs
    constructor
    · exact Or.inl
    · rintro (h | rfl)
      · exact h
      · exact hid
  · rw [if_neg hs]
    simp

theorem mem_map_fst_filter_key {α : Type} (q : String → Bool)
    (l : List (String × α)) (k : String) :
    k ∈ (l.filter (fun p => q p.1)).map Prod.fst
      ↔ (k ∈ l.map Prod.fst ∧ q k = true) := by
  rw [List.mem_map]
  constructor
  · rintro ⟨p, hp, rfl⟩
    rw [List.mem_filter] at hp
    exact ⟨List.mem_map.mpr ⟨p, hp.1, rfl⟩, hp.2⟩
  · rintro ⟨hk, hq⟩
    obtain ⟨p, hp, rfl⟩ := List.mem_map.mp hk
    exact ⟨p, List.mem_filter.mpr ⟨hp, hq⟩, rfl⟩

theorem mem_map_fst_filter_contains {α : Type} (ids : List String)
    (l : List (String × α)) (k : String) :
    k ∈ (l.filter (fun p => !(ids.contains p.1))).map Prod.fst
      ↔ (k ∈ l.map Prod.fst ∧ ids.contains k = false) :=
  Iff.trans (mem_map_fst_filter_key (fun x => !(ids.contains x)) l k) (by simp)

theorem keySync_cleanup (now : Int) (st : SessionState) (h : KeySync st) :
    KeySync (cleanupOldSessions now st) := by
  intro k
  have hc := cleanupOldSessions_char now st
  rw [hc.1, hc.2, mem_map_fst_filter_contains, mem_map_fst_filter_contains, h k]

theorem keySync_getOrCreate (id : String) (now : Int) (doCleanup : Bool)
    (st : SessionState) (h : KeySync st) :
    KeySync (getOrCreateSession id now doCleanup st).1 := by
  have h1 : KeySync (if doCleanup then cleanupOldSessions now st else st) := by
    cases doCleanup
    · simpa using h
    · simpa using keySync_cleanup now st h
  simp only [getOrCreateSession]
  generalize hst1 : (if doCleanup then cleanupOldSessions now st else st) = st1 at h1 ⊢
  cases hl : List.lookup id st1.sessions with
  | some client =>
    simp only [hl]
    intro k
    rw [mem_map_fst_setKey]
    constructor
    · intro hk
      exact Or.inl ((h1 k).mp hk)
    · rintro (hk | rfl)
      · exact (h1 k).mpr hk
      · exact (lookup_isSome_iff k st1.sessions).mp (by rw [hl]; rfl)
  | none =>
    simp only [hl]
    intro k
    rw [mem_map_fst_setKey]
    simp only [List.map_append, List.mem_append]
    constructor
    · rintro (hk | hk)
      · exact Or.inl ((h1 k).mp hk)
      · exact Or.inr (by simpa using hk)
    · rintro (hk | rfl)
      · exact Or.inl ((h1 k).mpr hk)
      · exact Or.inr (by simp)

theorem runOps_keySync_aux (ops : List RegistryOp) (st : SessionState)
    (h : KeySync st) : KeySync (ops.foldl applyOp st) := by
  induction ops generalizing st with
  | nil => exact h
  | cons op rest ih =>
    rw [List.foldl_cons]
    apply ih
    cases op with
    | request id now doCleanup => exact keySync_getOrCreate id now doCleanup st h
    | cleanup now => exact keySync_cleanup now st h

/-- C10: starting from both maps empty, after any interleaving of
`getOrCreateSession` requests (with or without the probabilistic cleanup
firing) and cleanup scans, `conversationSessions` and `sessionTimestamps`
hold exactly the same session ids. -/
theorem sessionMaps_synchronized (ops : List RegistryOp) (k : String) :
    k ∈ (runOps ops).sessions.map Prod.fst
      ↔ k ∈ (runOps ops).timestamps.map Prod.fst :=
  runOps_keySync_aux ops emptyState (fun _ => Iff.rfl) k

end AUGuru
